import Mathlib

/-!
Shallow embedding of the favicon service (wajeht/favicon, `main.go`).
The repository ships two concatenated variants of `main.go`; where they
differ, both variants are embedded (suffix `2` or `V1` marks the variant).
Strings are modelled at the character level; the Go code indexes bytes,
but every delimiter involved (`/`, `:`, `;`) is ASCII, so the first
matching byte is the first matching character and the two views agree.
`strings.ToLower` is modelled as ASCII lowercasing, which agrees with Go
on all inputs appearing in the claims.
-/

/-- Lowercase a single character, ASCII range only (model of Go
`strings.ToLower` restricted to ASCII, sufficient for MIME types and
host names). -/
def charLower (c : Char) : Char :=
  if 65 ≤ c.toNat ∧ c.toNat ≤ 90 then Char.ofNat (c.toNat + 32) else c

/-- Lowercase every character of a string. -/
def lowerStr (s : String) : String :=
  String.mk (s.data.map charLower)

/-- Truncate a string at the first occurrence of character `c`
(model of Go `url[:strings.Index(url, c)]`, the whole string if `c`
is absent). -/
def takeUntil (c : Char) (s : String) : String :=
  String.mk (s.data.takeWhile (fun d => d ≠ c))

/-- Test whether `p` begins string `s` (model of Go `strings.HasPrefix`). -/
def strStartsWith (s p : String) : Bool :=
  List.isPrefixOf p.data s.data

/-- Test whether `p` ends string `s` (model of Go `strings.HasSuffix`). -/
def strEndsWith (s p : String) : Bool :=
  List.isSuffixOf p.data s.data

/-- Substring occurrence on character lists. -/
def listHasSub (sub : List Char) : List Char → Bool
  | [] => List.isPrefixOf sub []
  | c :: cs => List.isPrefixOf sub (c :: cs) || listHasSub sub cs

/-- Test whether `sub` occurs inside `s` (model of Go `strings.Contains`). -/
def strContains (s sub : String) : Bool :=
  listHasSub sub.data s.data

/-- Embedding of `extractDomain` (first variant of `main.go`, lines
145-165): strip a leading scheme with `strings.HasPrefix`, truncate at
the first `/` and then the first `:`, lowercase; an empty remainder
returns the raw input unchanged. -/
def extractDomain (rawURL : String) : String :=
  let url := if strStartsWith rawURL "http://" then String.mk (rawURL.data.drop 7)
             else if strStartsWith rawURL "https://" then String.mk (rawURL.data.drop 8)
             else rawURL
  let url := takeUntil '/' url
  let url := takeUntil ':' url
  if url = "" then rawURL else lowerStr url

/-- Embedding of `extractDomain` (second variant of `main.go`, lines
662-682): the scheme is stripped only when the input is strictly longer
than the scheme (`len(url) > 8 && url[:8] == "https://"`), then the same
truncation and lowercasing. -/
def extractDomain2 (rawURL : String) : String :=
  let url := if rawURL.data.length > 8 ∧ rawURL.data.take 8 = "https://".data
             then String.mk (rawURL.data.drop 8)
             else if rawURL.data.length > 7 ∧ rawURL.data.take 7 = "http://".data
             then String.mk (rawURL.data.drop 7)
             else rawURL
  let url := takeUntil '/' url
  let url := takeUntil ':' url
  if url = "" then rawURL else lowerStr url

/-- Address Normalizer as the spec describes it, written from the spec's
words for comparison with the code: strip a leading `https://` or
`http://`, truncate at the first `/` and then at the first `:`,
lowercase; if the remainder is empty return the original raw input
unchanged. -/
def extractDomainSpec (rawURL : String) : String :=
  let url := if strStartsWith rawURL "https://" then String.mk (rawURL.data.drop 8)
             else if strStartsWith rawURL "http://" then String.mk (rawURL.data.drop 7)
             else rawURL
  let url := takeUntil '/' url
  let url := takeUntil ':' url
  if url = "" then rawURL else lowerStr url

/-- Embedding of `getFaviconURLs`: ordered candidate groups built from
the base address (identical in both variants of `main.go`). -/
def getFaviconURLs (baseURL : String) : List (List String) :=
  [ [ baseURL ++ "/favicon.ico",
      baseURL ++ "/favicon.png" ],
    [ baseURL ++ "/apple-touch-icon.png",
      baseURL ++ "/apple-touch-icon-precomposed.png" ],
    [ baseURL ++ "/apple-touch-icon-180x180.png",
      baseURL ++ "/apple-touch-icon-152x152.png",
      baseURL ++ "/apple-touch-icon-120x120.png" ] ]

/-- Embedding of `isImage`: reject the empty string, drop any `;`
parameters (Go `strings.Split(contentType, ";")[0]`), lowercase, and
check membership in the fixed image MIME allow-list. -/
def isImage (contentType : String) : Bool :=
  if contentType = "" then false
  else
    let ct := lowerStr (takeUntil ';' contentType)
    ct = "image/x-icon" || ct = "image/vnd.microsoft.icon" ||
    ct = "image/icon" || ct = "image/ico" ||
    ct = "image/png" || ct = "image/jpeg" || ct = "image/jpg" ||
    ct = "image/gif" || ct = "image/svg+xml" || ct = "image/webp"

/-- Embedding of `getContentType`: return the response content type when
non-empty, else fall back on the URL extension. -/
def getContentType (url respContentType : String) : String :=
  if respContentType ≠ "" then respContentType
  else if strEndsWith url ".png" then "image/png"
  else "image/x-icon"

/-- Decoded image as `resizeImage` sees it: dimensions plus abstract
pixel content (the pixel data itself plays no role in the claims). -/
structure Img where
  width : Nat
  height : Nat
  pix : List Nat
deriving DecidableEq, Repr

/-- Abstract codec standing for the Go image library calls made by
`resizeImage`: `png.Decode`, `jpeg.Decode`, `png.Encode`,
`jpeg.Encode` (with `none` as the error case of each) and
`draw.NearestNeighbor.Scale` producing the pixel content of the 16x16
destination canvas. -/
structure Codec where
  pngDecode : List Nat → Option Img
  jpegDecode : List Nat → Option Img
  pngEncode : Img → Option (List Nat)
  jpegEncode : Img → Option (List Nat)
  scalePix : Img → List Nat

/-- Decoder dispatch of `resizeImage`, mirroring its `switch`: `none`
means the content type matched neither decoder (the `default` branch, a
silent pass-through); `some none` is a decode error; `some (some img)` a
decoded image. -/
def imgDecode (c : Codec) (contentType : String) (data : List Nat) :
    Option (Option Img) :=
  if strContains contentType "png" then some (c.pngDecode data)
  else if strContains contentType "jpeg" || strContains contentType "jpg" then
    some (c.jpegDecode data)
  else none

/-- Encoder dispatch of `resizeImage`: PNG when the content type
mentions `png`, JPEG otherwise (the only other way to reach encoding is
via the JPEG decode branch). -/
def imgEncode (c : Codec) (contentType : String) (dst : Img) :
    Option (List Nat) :=
  if strContains contentType "png" then c.pngEncode dst else c.jpegEncode dst

/-- Embedding of `resizeImage` (identical in both variants): choose a
decoder by substring match on the content type, pass through anything
that is neither PNG nor JPEG or fails to decode, keep images already at
most 16x16, otherwise scale onto a fresh 16x16 canvas, re-encode in the
matching format, and return the re-encoding only when strictly smaller.
The Go function returns a nil error on every path, modelled by the
`Option String` error component. -/
def resizeImage (c : Codec) (data : List Nat) (contentType : String) :
    List Nat × Option String :=
  match imgDecode c contentType data with
  | none => (data, none)
  | some none => (data, none)
  | some (some img) =>
    if img.width ≤ 16 ∧ img.height ≤ 16 then (data, none)
    else
      match imgEncode c contentType ⟨16, 16, c.scalePix img⟩ with
      | none => (data, none)
      | some buf => if buf.length < data.length then (buf, none) else (data, none)

/-- Result of one probe, mirroring the Go `FaviconResult` struct
(`Error` is `none` exactly when the Go field is nil). -/
structure FaviconResult where
  Data : List Nat
  ContentType : String
  URL : String
  Error : Option String
deriving DecidableEq, Repr

/-- Remote HTTP response as observed by `fetchFavicon`: status code,
`Content-Type` header value and body bytes. -/
structure RemoteResp where
  status : Nat
  contentType : String
  body : List Nat
deriving DecidableEq, Repr

/-- Embedding of `fetchFavicon` after the request has been issued:
`resp = none` models a transport error (`httpClient.Do` failing,
including context cancellation), otherwise the status, content type and
body checks of the Go code run in order. The body is read through
`io.LimitReader(..., 1024*1024)`, so at most 1 MiB is kept; the bytes
are then routed through `resizeImage` and the content type through
`getContentType`. -/
def fetchFavicon (c : Codec) (resp : Option RemoteResp) (url : String) :
    FaviconResult :=
  match resp with
  | none => { Data := [], ContentType := "", URL := url, Error := some "transport error" }
  | some r =>
    if r.status ≠ 200 then
      { Data := [], ContentType := "", URL := url, Error := some "bad status" }
    else if ¬ isImage r.contentType then
      { Data := [], ContentType := "", URL := url, Error := some "not an image" }
    else
      { Data := (resizeImage c (r.body.take 1048576) r.contentType).1,
        ContentType := getContentType url r.contentType,
        URL := url,
        Error := none }

/-- One goroutine of `fetchFaviconsParallel`: its candidate URL, its
group index (the `priority` argument of the Go closure), the instant its
`fetchFavicon` call completes, and the `FaviconResult` it produced. -/
structure Probe where
  url : String
  priority : Nat
  time : Nat
  result : FaviconResult
deriving DecidableEq, Repr

/-- Concurrency environment for one run of `fetchFaviconsParallel`: for
each candidate URL, the completion instant of its probe and the
`FaviconResult` the probe computes when it completes before the
deadline (a probe still running at the deadline sees a cancelled
context and its result carries an error, handled by the scheduler
below, so `result` is only consulted for in-deadline completions). -/
structure ProbeEnv where
  time : String → Nat
  result : String → FaviconResult

/-- Spawn the probe tasks exactly as the nested loops of
`fetchFaviconsParallel` do: one task per URL of every group, tagged with
its group index. -/
def mkProbes (urlGroups : List (List String)) (env : ProbeEnv) : List Probe :=
  (urlGroups.enum.map
    (fun gi => gi.2.map (fun u => ⟨u, gi.1, env.time u, env.result u⟩))).flatten

/-- Ordering of probes by completion instant; the scheduler delivers
channel publications in this order. -/
def timeLE (a b : Probe) : Prop := a.time ≤ b.time

instance : DecidableRel timeLE := fun a b => Nat.decLe a.time b.time

instance : IsTotal Probe timeLE := ⟨fun a b => Nat.le_total a.time b.time⟩

instance : IsTrans Probe timeLE := ⟨fun _ _ _ => Nat.le_trans⟩

/-- Consumer loop of `fetchFaviconsParallel` over probes in completion
order: a probe completing at or after the deadline sees a cancelled
context, its `fetchFavicon` returns an error and nothing is published; a
failed probe is swallowed; the first successful publication is consumed,
`cancel()` fires and its result is returned (later successes would find
the context cancelled and drop their publication, which the early return
models). An exhausted queue models the `close(resultChan)` after
`wg.Wait()`, returning nil. -/
def runQueue (timeout : Nat) : List Probe → Option FaviconResult
  | [] => none
  | p :: ps =>
    if timeout ≤ p.time then runQueue timeout ps
    else if p.result.Error = none then some p.result
    else runQueue timeout ps

/-- Embedding of `fetchFaviconsParallel`: all probes across all groups
run concurrently under one deadline-bound context; the deterministic
scheduler delivers completions in order of completion instant (ties in
spawn order) and the consumer takes the first success. -/
def fetchFaviconsParallel (urlGroups : List (List String)) (env : ProbeEnv)
    (timeout : Nat) : Option FaviconResult :=
  runQueue timeout (List.insertionSort timeLE (mkProbes urlGroups env))

/-- One row of the `favicons` table: the UNIQUE domain key, blob, content
type and the `expires_at` instant (seconds). -/
structure CacheEntry where
  domain : String
  data : List Nat
  contentType : String
  expiresAt : Nat
deriving DecidableEq, Repr

/-- State of the `favicons` table. -/
structure Store where
  entries : List CacheEntry
deriving DecidableEq, Repr

namespace FaviconRepository

/-- Embedding of `FaviconRepository.Get`: the query
`SELECT data, content_type FROM favicons WHERE domain = ? AND
expires_at > CURRENT_TIMESTAMP`; `sql.ErrNoRows` becomes `none`. -/
def Get (s : Store) (now : Nat) (domain : String) : Option (List Nat × String) :=
  match s.entries.find? (fun e => e.domain = domain ∧ now < e.expiresAt) with
  | some e => some (e.data, e.contentType)
  | none => none

/-- Embedding of `FaviconRepository.Save`: `INSERT OR REPLACE` on the
UNIQUE `domain` column with `expires_at = datetime('now', '+24 hours')`,
i.e. the conflicting row (if any) is replaced and the new row expires
86400 seconds from now. -/
def Save (s : Store) (now : Nat) (domain : String) (data : List Nat)
    (contentType : String) : Store :=
  { entries := s.entries.filter (fun e => e.domain ≠ domain) ++
      [⟨domain, data, contentType, now + 86400⟩] }

/-- Embedding of `FaviconRepository.CleanupExpired`:
`DELETE FROM favicons WHERE expires_at <= CURRENT_TIMESTAMP`, reporting
the number of rows removed. -/
def CleanupExpired (s : Store) (now : Nat) : Store × Nat :=
  let kept := s.entries.filter (fun e => now < e.expiresAt)
  ({ entries := kept }, s.entries.length - kept.length)

end FaviconRepository

/-- HTTP response as assembled by the handlers: status code, header
list in the order set, body bytes. -/
structure HttpResponse where
  status : Nat
  headers : List (String × String)
  body : List Nat
deriving DecidableEq, Repr

/-- Value of a response header (first occurrence). -/
def headerGet (r : HttpResponse) (k : String) : Option String :=
  (r.headers.find? (fun h => h.1 = k)).map (fun h => h.2)

/-- Collaborators of `handleHome` for one request: the cache lookup
keyed by canonical domain (`repo.Get` / `getCachedFavicon`), the
resolver outcome for a given candidate-group list
(`fetchFaviconsParallel`), and the bundled default icon bytes. -/
structure EdgeEnv where
  cache : String → Option (List Nat × String)
  fetch : List (List String) → Option FaviconResult
  defaultIcon : List Nat

/-- Scheme completion performed by `handleHome` before domain
extraction: an address with neither `http://` nor `https://` in front
gets `https://` prepended. -/
def normalizeRawURL (u : String) : String :=
  if ¬ strStartsWith u "http://" ∧ ¬ strStartsWith u "https://" then
    "https://" ++ u
  else u

/-- Embedding of `handleHome` (second variant of `main.go`, lines
906-974): 400 on a missing `url` parameter; scheme completion; domain
extraction; on cache hit an ETag check answering 304 on a match
(including Cloudflare's `W/` form) and otherwise a 200 with `X-Cache:
HIT`; on miss the resolver runs over `getFaviconURLs` and a success is
a 200 with `X-Cache: MISS` (the `repo.Save` side effect does not touch
the response); total failure serves the bundled icon with `X-Cache:
DEFAULT`. -/
def handleHome (env : EdgeEnv) (ifNoneMatch : String) (urlParam : String) :
    HttpResponse :=
  if urlParam = "" then { status := 400, headers := [], body := [] }
  else
    let rawURL := normalizeRawURL urlParam
    let domain := extractDomain2 rawURL
    match env.cache domain with
    | some (data, contentType) =>
      let etag := "\"fav-" ++ domain ++ "\""
      if ifNoneMatch = etag ∨ ifNoneMatch = "W/" ++ etag then
        { status := 304, headers := [], body := [] }
      else
        { status := 200,
          headers := [("Content-Type", contentType),
                      ("Cache-Control", "public, max-age=86400, immutable"),
                      ("ETag", etag),
                      ("X-Cache", "HIT")],
          body := data }
    | none =>
      match env.fetch (getFaviconURLs ("https://" ++ domain)) with
      | some result =>
        { status := 200,
          headers := [("Content-Type", result.ContentType),
                      ("Cache-Control", "public, max-age=86400"),
                      ("X-Cache", "MISS")],
          body := result.Data }
      | none =>
        { status := 200,
          headers := [("Content-Type", "image/x-icon"),
                      ("Cache-Control", "public, max-age=86400"),
                      ("X-Cache", "DEFAULT")],
          body := env.defaultIcon }

/-- Embedding of `handleHome` (first variant of `main.go`, lines
390-448): same flow without the ETag/304 conditional branch, using the
first variant of `extractDomain`. -/
def handleHomeV1 (env : EdgeEnv) (urlParam : String) : HttpResponse :=
  if urlParam = "" then { status := 400, headers := [], body := [] }
  else
    let rawURL := normalizeRawURL urlParam
    let domain := extractDomain rawURL
    match env.cache domain with
    | some (data, contentType) =>
      { status := 200,
        headers := [("Content-Type", contentType),
                    ("Cache-Control", "public, max-age=86400"),
                    ("X-Cache", "HIT")],
        body := data }
    | none =>
      match env.fetch (getFaviconURLs ("https://" ++ domain)) with
      | some result =>
        { status := 200,
          headers := [("Content-Type", result.ContentType),
                      ("Cache-Control", "public, max-age=86400"),
                      ("X-Cache", "MISS")],
          body := result.Data }
      | none =>
        { status := 200,
          headers := [("Content-Type", "image/x-icon"),
                      ("Cache-Control", "public, max-age=86400"),
                      ("X-Cache", "DEFAULT")],
          body := env.defaultIcon }

/-- Cache status a request for the given canonical domain ends up with
under the given collaborators: HIT when the cache answers, MISS when
the resolver answers, DEFAULT otherwise. -/
def cacheStatus (env : EdgeEnv) (domain : String) : String :=
  match env.cache domain with
  | some _ => "HIT"
  | none =>
    match env.fetch (getFaviconURLs ("https://" ++ domain)) with
    | some _ => "MISS"
    | none => "DEFAULT"

/-- Network as seen by the probe goroutines: completion instant and
remote response (or transport failure) per candidate URL. -/
structure NetEnv where
  time : String → Nat
  resp : String → Option RemoteResp

/-- Probe environment induced by a network environment: every probe's
result is computed by `fetchFavicon` on what the network returns for
its URL. -/
def probeEnvOf (c : Codec) (net : NetEnv) : ProbeEnv where
  time := net.time
  result := fun u => fetchFavicon c (net.resp u) u

/-- Predicate of the consumer loop: a probe publishes iff it completes
strictly before the deadline and its `fetchFavicon` result carries no
error. -/
def isHit (timeout : Nat) (p : Probe) : Bool :=
  decide (p.time < timeout) && decide (p.result.Error = none)

/-- Concrete codec used to exercise `resizeImage` on explicit inputs:
decodes any PNG input as a 32x32 image and encodes the 16x16 canvas
into a single byte. -/
def sampleCodec : Codec where
  pngDecode := fun _ => some ⟨32, 32, [0]⟩
  jpegDecode := fun _ => none
  pngEncode := fun i => some [i.width]
  jpegEncode := fun _ => none
  scalePix := fun _ => [7]

/-- Concrete edge collaborators where both the cache and the resolver
come up empty. -/
def sampleEdgeEnv : EdgeEnv where
  cache := fun _ => none
  fetch := fun _ => none
  defaultIcon := [0]

/-- Concrete edge collaborators where the cache answers every domain. -/
def hitEdgeEnv : EdgeEnv where
  cache := fun _ => some ([1], "image/png")
  fetch := fun _ => none
  defaultIcon := [0]

/-- Concrete probe environment where every candidate succeeds, the
group-1 `apple-touch-icon.png` candidate answering fastest. -/
def sampleProbeEnv : ProbeEnv where
  time := fun u => if u = "https://h/apple-touch-icon.png" then 5 else 50
  result := fun u =>
    { Data := [1], ContentType := "image/png", URL := u, Error := none }

/-- Concrete network where every candidate fails: the root candidates
answer 404 and everything else serves HTML. -/
def failNetEnv : NetEnv where
  time := fun _ => 10
  resp := fun u =>
    if u = "https://h/favicon.ico" then some ⟨404, "image/x-icon", []⟩
    else some ⟨200, "text/html", [1]⟩

/-! Helper lemmas. -/

/-- Helper: `isPrefixOf` on character lists is the take-equality test. -/
theorem isPrefixOf_iff_take (p l : List Char) :
    List.isPrefixOf p l = true ↔ l.take p.length = p := by
  induction p generalizing l with
  | nil => simp [List.isPrefixOf]
  | cons a as ih =>
    cases l with
    | nil => simp [List.isPrefixOf]
    | cons b bs =>
      simp only [List.isPrefixOf, Bool.and_eq_true, beq_iff_eq, ih,
        List.length_cons, List.take_succ_cons, List.cons.injEq]
      constructor
      · rintro ⟨h1, h2⟩; exact ⟨h1.symm, h2⟩
      · rintro ⟨h1, h2⟩; exact ⟨h1.symm, h2⟩

/-- Helper: unfolding of `strStartsWith` to a take-equality. -/
theorem strStartsWith_iff (s p : String) :
    strStartsWith s p = true ↔ s.data.take p.data.length = p.data :=
  isPrefixOf_iff_take p.data s.data

/-- Helper: a string starts with what was prepended to it. -/
theorem strStartsWith_append (p t : String) : strStartsWith (p ++ t) p = true := by
  rw [strStartsWith_iff, String.data_append, List.take_left]

/-- Helper: no string starts with both schemes. -/
theorem scheme_excl (s : String) (h : strStartsWith s "http://" = true) :
    strStartsWith s "https://" = false := by
  rw [strStartsWith_iff] at h
  by_contra hc
  rw [Bool.not_eq_false, strStartsWith_iff] at hc
  have h8 : ("https://".data).length = 8 := by decide
  have h7 : ("http://".data).length = 7 := by decide
  rw [h8] at hc
  rw [h7] at h
  have t1 : s.data.take 7 = List.take 7 "https://".data := by
    have t0 := congrArg (List.take 7) hc
    rwa [List.take_take, (by norm_num : (7 : ℕ) ⊓ 8 = 7)] at t0
  rw [h] at t1
  exact absurd t1 (by decide)

/-- Helper: the stripping condition of the second `extractDomain`
variant agrees with `strings.HasPrefix` except on the input that is
exactly the scheme. -/
theorem strip_cond_iff (s p : String) (n : Nat) (hn : p.data.length = n)
    (h : s ≠ p) :
    (s.data.length > n ∧ s.data.take n = p.data) ↔ strStartsWith s p = true := by
  subst hn
  constructor
  · rintro ⟨-, ht⟩
    exact (strStartsWith_iff s p).mpr ht
  · intro hw
    have ht := (strStartsWith_iff s p).mp hw
    refine ⟨?_, ht⟩
    have hge : p.data.length ≤ s.data.length := by
      by_contra hlt
      push_neg at hlt
      have h2 : s.data.take p.data.length = s.data :=
        List.take_of_length_le (Nat.le_of_lt hlt)
      rw [h2] at ht
      have := congrArg List.length ht
      omega
    rcases Nat.eq_or_lt_of_le hge with heq | hlt
    · have h2 : s.data.take p.data.length = s.data := by
        rw [heq, List.take_length]
      rw [h2] at ht
      exact absurd (String.ext ht) h
    · exact hlt

/-- Helper: the first `extractDomain` variant computes exactly the
spec's algorithm. -/
theorem extractDomain_eq_spec (s : String) :
    extractDomain s = extractDomainSpec s := by
  simp only [extractDomain, extractDomainSpec]
  by_cases h1 : strStartsWith s "http://" = true
  · have h2 : ¬ strStartsWith s "https://" = true := by
      simp [scheme_excl s h1]
    rw [if_pos h1, if_neg h2, if_pos h1]
  · by_cases h2 : strStartsWith s "https://" = true
    · rw [if_neg h1, if_pos h2, if_pos h2]
    · simp only [if_neg h1, if_neg h2]

/-- Helper: away from the two degenerate inputs, the second
`extractDomain` variant also computes the spec's algorithm. -/
theorem extractDomain2_eq_spec (s : String) (h1 : s ≠ "http://")
    (h2 : s ≠ "https://") : extractDomain2 s = extractDomainSpec s := by
  simp only [extractDomain2, extractDomainSpec]
  by_cases hs : strStartsWith s "https://" = true
  · have hc := (strip_cond_iff s "https://" 8 (by decide) h2).mpr hs
    rw [if_pos hc, if_pos hs]
  · have hc : ¬ (s.data.length > 8 ∧ s.data.take 8 = "https://".data) :=
      fun hx => hs ((strip_cond_iff s "https://" 8 (by decide) h2).mp hx)
    by_cases hh : strStartsWith s "http://" = true
    · have hc7 := (strip_cond_iff s "http://" 7 (by decide) h1).mpr hh
      rw [if_neg hc, if_pos hc7, if_neg hs, if_pos hh]
    · have hc7 : ¬ (s.data.length > 7 ∧ s.data.take 7 = "http://".data) :=
        fun hx => hh ((strip_cond_iff s "http://" 7 (by decide) h1).mp hx)
      simp only [if_neg hc, if_neg hc7, if_neg hs, if_neg hh]

/-! Claim theorems. -/

/-- C6 counterexample: the first candidate group contains neither
`/favicon.svg` nor any host-named variant; for the host `example.com`
the whole candidate list never mentions `/favicon.svg`, refuting the
claimed content of the first group. -/
theorem getFaviconURLs_no_svg :
    (getFaviconURLs "https://example.com").headD [] =
      ["https://example.com/favicon.ico", "https://example.com/favicon.png"] ∧
    "https://example.com/favicon.svg" ∉
      (getFaviconURLs "https://example.com").flatten := by
  decide

/-- C6 (amended): for every base address the Candidate Generator emits
exactly three ordered groups: the well-known root paths `/favicon.ico`
and `/favicon.png` (no `/favicon.svg`, no host-named variants), then the
unsized Apple-platform icons, then the sized Apple-platform icons in
descending order 180, 152, 120. -/
theorem getFaviconURLs_groups (baseURL : String) :
    getFaviconURLs baseURL =
      [ [ baseURL ++ "/favicon.ico",
          baseURL ++ "/favicon.png" ],
        [ baseURL ++ "/apple-touch-icon.png",
          baseURL ++ "/apple-touch-icon-precomposed.png" ],
        [ baseURL ++ "/apple-touch-icon-180x180.png",
          baseURL ++ "/apple-touch-icon-152x152.png",
          baseURL ++ "/apple-touch-icon-120x120.png" ] ] := rfl

/-- C7 counterexample: on the input `"https://"` the second
`extractDomain` variant does not strip the scheme and returns
`"https"`, while the claimed algorithm (strip, truncate, lowercase,
empty remainder returns the original) yields the original input
`"https://"` unchanged. -/
theorem extractDomain2_scheme_only_counterexample :
    extractDomain2 "https://" = "https" ∧
    extractDomainSpec "https://" = "https://" := by
  decide

/-- C7 (amended): the first `extractDomain` variant behaves exactly as
claimed on every input (strip a leading scheme, truncate at the first
`/` then the first `:`, lowercase, return the original input when the
remainder is empty, in particular on `"https://Example.com:8080/x"` and
on `""`); the second variant agrees except on the two inputs that are
exactly a bare scheme, where it strips nothing and returns `"http"`
resp. `"https"`. -/
theorem extractDomain_spec_correspondence :
    (∀ s, extractDomain s = extractDomainSpec s) ∧
    (∀ s, s ≠ "http://" → s ≠ "https://" →
      extractDomain2 s = extractDomainSpec s) ∧
    extractDomain2 "http://" = "http" ∧
    extractDomain2 "https://" = "https" ∧
    extractDomainSpec "https://Example.com:8080/x" = "example.com" ∧
    extractDomainSpec "" = "" :=
  ⟨extractDomain_eq_spec, extractDomain2_eq_spec,
    by decide, by decide, by decide, by decide⟩

/-- C7 witness: the amended correspondence applied to the spec's own
example input. -/
theorem extractDomain_spec_correspondence_witness :
    extractDomain2 "https://Example.com:8080/x" =
      extractDomainSpec "https://Example.com:8080/x" :=
  extractDomain_spec_correspondence.2.1 "https://Example.com:8080/x"
    (by decide) (by decide)

/-- C5: behaviour of the Image Normalizer. A content type mentioning
neither `png` nor `jpeg`/`jpg` is never decoded; an undecodable or
failed-decode input comes back unchanged; a decoded image with both
dimensions at most 16 comes back unchanged; otherwise the image is
scaled onto an exactly 16x16 canvas, re-encoded in the matching format,
and the re-encoding is returned iff it is strictly smaller than the
input, an encode failure again returning the input; the error component
is `none` on every path. -/
theorem resizeImage_spec (c : Codec) (data : List Nat) (ct : String) :
    (resizeImage c data ct).2 = none ∧
    ((strContains ct "png" = false ∧ strContains ct "jpeg" = false ∧
        strContains ct "jpg" = false) → imgDecode c ct data = none) ∧
    (imgDecode c ct data = none → resizeImage c data ct = (data, none)) ∧
    (imgDecode c ct data = some none → resizeImage c data ct = (data, none)) ∧
    (∀ img, imgDecode c ct data = some (some img) → img.width ≤ 16 →
      img.height ≤ 16 → resizeImage c data ct = (data, none)) ∧
    (∀ img, imgDecode c ct data = some (some img) →
      ¬ (img.width ≤ 16 ∧ img.height ≤ 16) →
      resizeImage c data ct =
        match imgEncode c ct ⟨16, 16, c.scalePix img⟩ with
        | none => (data, none)
        | some buf =>
          if buf.length < data.length then (buf, none) else (data, none)) := by
  refine ⟨?_, ?_, ?_, ?_, ?_, ?_⟩
  · unfold resizeImage
    cases h : imgDecode c ct data with
    | none => rfl
    | some o =>
      cases o with
      | none => rfl
      | some img =>
        by_cases hd : img.width ≤ 16 ∧ img.height ≤ 16
        · simp [hd]
        · simp only [if_neg hd]
          cases he : imgEncode c ct ⟨16, 16, c.scalePix img⟩ with
          | none => rfl
          | some buf => by_cases hb : buf.length < data.length <;> simp [hb]
  · rintro ⟨h1, h2, h3⟩
    simp [imgDecode, h1, h2, h3]
  · intro h
    simp [resizeImage, h]
  · intro h
    simp [resizeImage, h]
  · intro img h hw hh
    simp [resizeImage, h, hw, hh]
  · intro img h hne
    simp only [resizeImage, h, if_neg hne]

/-- C5 witness: the spec theorem applied to a concrete codec decoding a
32x32 PNG of four bytes whose 16x16 re-encoding is the single byte 16,
which being strictly smaller is returned. -/
theorem resizeImage_spec_witness :
    resizeImage sampleCodec [1, 2, 3, 4] "image/png" = ([16], none) := by
  have h := (resizeImage_spec sampleCodec [1, 2, 3, 4] "image/png").2.2.2.2.2
      ⟨32, 32, [0]⟩ (by decide) (by decide)
  rw [h]
  decide

/-- Helper: only a non-empty content type passes `isImage`. -/
theorem isImage_ne_empty (ct : String) (h : isImage ct = true) : ct ≠ "" := by
  intro he
  rw [he] at h
  exact absurd h (by decide)

/-- Helper: `getContentType` returns a non-empty response content type
verbatim. -/
theorem getContentType_of_ne (url ct : String) (h : ct ≠ "") :
    getContentType url ct = ct := by
  simp [getContentType, h]

/-- C9: every successful `fetchFavicon` result copies the remote
response's `Content-Type` header verbatim and that header is non-empty,
so the extension-based fallback branches of `getContentType` are
unreachable from `fetchFavicon`: `isImage` rejects an empty content
type before `getContentType` runs. -/
theorem fetchFavicon_contentType_verbatim (c : Codec)
    (resp : Option RemoteResp) (url : String)
    (h : (fetchFavicon c resp url).Error = none) :
    ∃ r, resp = some r ∧ r.contentType ≠ "" ∧
      (fetchFavicon c resp url).ContentType = r.contentType := by
  cases resp with
  | none => exact absurd h (by simp [fetchFavicon])
  | some r =>
    by_cases hs : r.status ≠ 200
    · exact absurd h (by simp [fetchFavicon, hs])
    · by_cases hi : isImage r.contentType
      · have hne := isImage_ne_empty _ hi
        refine ⟨r, rfl, hne, ?_⟩
        simp [fetchFavicon, hs, hi, getContentType_of_ne url _ hne]
      · exact absurd h (by simp [fetchFavicon, hs, hi])

/-- C9 witness: a concrete 200 response with `Content-Type: image/png`
whose successful result carries that exact content type. -/
theorem fetchFavicon_contentType_verbatim_witness :
    ∃ r, (some ⟨200, "image/png", [1, 2]⟩ : Option RemoteResp) = some r ∧
      r.contentType ≠ "" ∧
      (fetchFavicon sampleCodec (some ⟨200, "image/png", [1, 2]⟩)
        "https://h/favicon.png").ContentType = r.contentType :=
  fetchFavicon_contentType_verbatim sampleCodec (some ⟨200, "image/png", [1, 2]⟩)
    "https://h/favicon.png" (by decide)

/-- Helper: `find?` returns the designated element when it is the only
one satisfying the predicate. -/
theorem find?_eq_some_of_unique {α : Type} (p : α → Bool) (l : List α) (e : α)
    (he : e ∈ l) (hp : p e = true) (hu : ∀ x ∈ l, p x = true → x = e) :
    List.find? p l = some e := by
  induction l with
  | nil => cases he
  | cons x xs ih =>
    by_cases hx : p x = true
    · rw [List.find?_cons_of_pos _ hx, hu x (List.mem_cons_self x xs) hx]
    · rw [List.find?_cons_of_neg _ hx]
      rcases List.mem_cons.mp he with rfl | hm
      · exact absurd hp hx
      · exact ih hm fun y hy hpy => hu y (List.mem_cons_of_mem _ hy) hpy

/-- C3: saving a favicon for a host and reading it back at the same
instant returns exactly the saved bytes and content type, and reading a
host for which the store holds no row returns not-found. -/
theorem save_get_roundtrip :
    (∀ (s : Store) (now : Nat) (h : String) (d : List Nat) (t : String),
      FaviconRepository.Get (FaviconRepository.Save s now h d t) now h
        = some (d, t)) ∧
    (∀ (s : Store) (now : Nat) (h : String),
      (∀ e ∈ s.entries, e.domain ≠ h) →
      FaviconRepository.Get s now h = none) := by
  constructor
  · intro s now h d t
    unfold FaviconRepository.Get FaviconRepository.Save
    rw [List.find?_append]
    have h1 : List.find? (fun e => decide (e.domain = h ∧ now < e.expiresAt))
        (List.filter (fun e => decide (e.domain ≠ h)) s.entries) = none := by
      rw [List.find?_eq_none]
      intro x hx
      have hxd := (List.mem_filter.mp hx).2
      simp only [decide_eq_true_eq] at hxd ⊢
      exact fun hc => hxd hc.1
    have h2 : List.find? (fun e => decide (e.domain = h ∧ now < e.expiresAt))
        [(⟨h, d, t, now + 86400⟩ : CacheEntry)] = some ⟨h, d, t, now + 86400⟩ := by
      apply List.find?_cons_of_pos
      simp
    rw [h1, h2]
    rfl
  · intro s now h hnone
    unfold FaviconRepository.Get
    have h1 : List.find? (fun e => decide (e.domain = h ∧ now < e.expiresAt))
        s.entries = none := by
      rw [List.find?_eq_none]
      intro x hx
      simp only [decide_eq_true_eq]
      exact fun hc => hnone x hx hc.1
    rw [h1]

/-- C3 witness: the roundtrip law applied to the empty store, whose
entry list trivially holds no row for the host. -/
theorem save_get_roundtrip_witness :
    FaviconRepository.Get ⟨[]⟩ 0 "example.com" = none :=
  save_get_roundtrip.2 ⟨[]⟩ 0 "example.com" (by decide)

/-- C4: in a store whose domains are unique (the UNIQUE column
invariant), an entry past its expiry is invisible to `Get` and removed
by `CleanupExpired`, while an entry not yet expired survives cleanup
untouched and stays retrievable afterwards. -/
theorem ttl_get_cleanup (s : Store) (now : Nat) (e : CacheEntry)
    (hnd : (s.entries.map (fun x => x.domain)).Nodup) (he : e ∈ s.entries) :
    (e.expiresAt ≤ now →
      FaviconRepository.Get s now e.domain = none ∧
      e ∉ (FaviconRepository.CleanupExpired s now).1.entries) ∧
    (now < e.expiresAt →
      e ∈ (FaviconRepository.CleanupExpired s now).1.entries ∧
      FaviconRepository.Get (FaviconRepository.CleanupExpired s now).1 now
        e.domain = some (e.data, e.contentType)) := by
  constructor
  · intro hexp
    constructor
    · unfold FaviconRepository.Get
      have h1 : List.find?
          (fun x => decide (x.domain = e.domain ∧ now < x.expiresAt))
          s.entries = none := by
        rw [List.find?_eq_none]
        intro x hx
        simp only [decide_eq_true_eq]
        rintro ⟨hd, ht⟩
        have hxe : x = e := List.inj_on_of_nodup_map hnd hx he hd
        rw [hxe] at ht
        omega
      rw [h1]
    · unfold FaviconRepository.CleanupExpired
      simp only [List.mem_filter, decide_eq_true_eq]
      rintro ⟨-, ht⟩
      omega
  · intro hlive
    have hmem : e ∈ List.filter (fun x => decide (now < x.expiresAt)) s.entries := by
      rw [List.mem_filter]
      exact ⟨he, by simpa using hlive⟩
    constructor
    · simpa [FaviconRepository.CleanupExpired] using hmem
    · unfold FaviconRepository.Get FaviconRepository.CleanupExpired
      have h1 : List.find?
          (fun x => decide (x.domain = e.domain ∧ now < x.expiresAt))
          (List.filter (fun x => decide (now < x.expiresAt)) s.entries)
          = some e := by
        apply find?_eq_some_of_unique _ _ e hmem
        · simp [hlive]
        · intro x hx hpx
          have hx0 := (List.mem_filter.mp hx).1
          simp only [decide_eq_true_eq] at hpx
          exact List.inj_on_of_nodup_map hnd hx0 he hpx.1
      rw [h1]

/-- C4 witness: a two-row store at time 100 with an expired row (expiry
50) and a live sibling (expiry 200); the expired row is invisible to
`Get` and removed by cleanup. -/
theorem ttl_get_cleanup_witness :
    FaviconRepository.Get
      ⟨[⟨"a.com", [1], "image/png", 50⟩, ⟨"b.com", [2], "image/png", 200⟩]⟩
      100 "a.com" = none ∧
    (⟨"a.com", [1], "image/png", 50⟩ : CacheEntry) ∉
      (FaviconRepository.CleanupExpired
        ⟨[⟨"a.com", [1], "image/png", 50⟩, ⟨"b.com", [2], "image/png", 200⟩]⟩
        100).1.entries :=
  (ttl_get_cleanup
    ⟨[⟨"a.com", [1], "image/png", 50⟩, ⟨"b.com", [2], "image/png", 200⟩]⟩
    100 ⟨"a.com", [1], "image/png", 50⟩ (by decide) (by decide)).1 (by decide)

/-- Helper: the consumer loop returns the first probe in queue order
that completes strictly before the deadline with a successful result. -/
theorem runQueue_eq_find (timeout : Nat) (l : List Probe) :
    runQueue timeout l
      = (List.find? (isHit timeout) l).map (fun p => p.result) := by
  induction l with
  | nil => rfl
  | cons p ps ih =>
    by_cases h1 : timeout ≤ p.time
    · have hhit : ¬ isHit timeout p = true := by
        simp only [isHit, Bool.and_eq_true, decide_eq_true_eq]
        rintro ⟨hlt, -⟩
        omega
      rw [List.find?_cons_of_neg _ hhit]
      simp only [runQueue, if_pos h1]
      exact ih
    · have hlt : p.time < timeout := Nat.lt_of_not_le h1
      by_cases h2 : p.result.Error = none
      · have hhit : isHit timeout p = true := by
          simp [isHit, hlt, h2]
        rw [List.find?_cons_of_pos _ hhit]
        simp only [runQueue, if_neg h1, if_pos h2]
        rfl
      · have hhit : ¬ isHit timeout p = true := by
          simp only [isHit, Bool.and_eq_true, decide_eq_true_eq]
          rintro ⟨-, he⟩
          exact h2 he
        rw [List.find?_cons_of_neg _ hhit]
        simp only [runQueue, if_neg h1, if_neg h2]
        exact ih

/-- Helper: in a completion-time-sorted queue, a probe that publishes
and strictly beats every other publishing probe is the one found. -/
theorem find?_sorted_first (t : Nat) (l : List Probe)
    (hs : List.Sorted timeLE l) (p : Probe) (hp : p ∈ l)
    (hph : isHit t p = true)
    (hmin : ∀ o ∈ l, isHit t o = true → o ≠ p → p.time < o.time) :
    List.find? (isHit t) l = some p := by
  induction l with
  | nil => cases hp
  | cons x xs ih =>
    rcases List.sorted_cons.mp hs with ⟨hx, hs2⟩
    by_cases hxh : isHit t x = true
    · rw [List.find?_cons_of_pos _ hxh]
      rcases List.mem_cons.mp hp with rfl | hm
      · rfl
      · by_cases hxp : x = p
        · rw [hxp]
        · have h1 := hmin x (List.mem_cons_self _ _) hxh hxp
          have h2 : x.time ≤ p.time := hx p hm
          omega
    · rw [List.find?_cons_of_neg _ hxh]
      rcases List.mem_cons.mp hp with rfl | hm
      · exact absurd hph hxh
      · exact ih hs2 hm fun o ho hoh hop =>
          hmin o (List.mem_cons_of_mem _ ho) hoh hop

/-- C1: the Resolver's answer is the result of the earliest-completing
successful probe within the deadline; priority (group index) only
orders generation, so a lower-priority probe `p` that completes first
wins even when a higher-priority probe `q` also succeeds in time. The
first published success cancels the scope, modelled by the consumer
returning at the first success in completion order. -/
theorem fetchFaviconsParallel_first_success_wins
    (urlGroups : List (List String)) (env : ProbeEnv) (timeout : Nat)
    (p q : Probe)
    (hp : p ∈ mkProbes urlGroups env) (_hq : q ∈ mkProbes urlGroups env)
    (_hpri : q.priority < p.priority)
    (_hqok : q.result.Error = none) (_hqt : q.time < timeout)
    (hpok : p.result.Error = none) (hpt : p.time < timeout)
    (hmin : ∀ o ∈ mkProbes urlGroups env, o.result.Error = none →
      o.time < timeout → o ≠ p → p.time < o.time) :
    fetchFaviconsParallel urlGroups env timeout = some p.result := by
  unfold fetchFaviconsParallel
  rw [runQueue_eq_find]
  have hph : isHit timeout p = true := by simp [isHit, hpt, hpok]
  have hfind : List.find? (isHit timeout)
      (List.insertionSort timeLE (mkProbes urlGroups env)) = some p := by
    apply find?_sorted_first timeout _
      (List.sorted_insertionSort timeLE _) p
      ((List.mem_insertionSort timeLE).mpr hp) hph
    intro o ho hoh hop
    have ho2 := (List.mem_insertionSort timeLE).mp ho
    have hoh2 : o.result.Error = none ∧ o.time < timeout := by
      simp only [isHit, Bool.and_eq_true, decide_eq_true_eq] at hoh
      exact ⟨hoh.2, hoh.1⟩
    exact hmin o ho2 hoh2.1 hoh2.2 hop
  rw [hfind]
  rfl

/-- C1 witness: over the real candidate groups for host `h`, every
probe succeeds but the group-1 `apple-touch-icon.png` probe completes
at instant 5 while all higher-priority group-0 probes complete at 50;
the lower-priority probe's result is the answer. -/
theorem fetchFaviconsParallel_first_success_wins_witness :
    fetchFaviconsParallel (getFaviconURLs "https://h") sampleProbeEnv 100
      = some { Data := [1], ContentType := "image/png",
               URL := "https://h/apple-touch-icon.png", Error := none } :=
  fetchFaviconsParallel_first_success_wins (getFaviconURLs "https://h")
    sampleProbeEnv 100
    ⟨"https://h/apple-touch-icon.png", 1, 5,
      { Data := [1], ContentType := "image/png",
        URL := "https://h/apple-touch-icon.png", Error := none }⟩
    ⟨"https://h/favicon.ico", 0, 50,
      { Data := [1], ContentType := "image/png",
        URL := "https://h/favicon.ico", Error := none }⟩
    (by decide) (by decide) (by decide) (by decide) (by decide)
    (by decide) (by decide) (by decide)

/-- C2: when no probe publishes a success before the deadline — each
probe's `fetchFavicon` result carrying an error (transport failure,
non-200 status, non-image content type) or its completion missing the
deadline — the Resolver returns `none`, the absence value, not an
error, and no individual probe failure appears in the output. -/
theorem fetchFaviconsParallel_none_of_no_success
    (urlGroups : List (List String)) (c : Codec) (net : NetEnv) (timeout : Nat)
    (h : ∀ p ∈ mkProbes urlGroups (probeEnvOf c net),
      p.result.Error ≠ none ∨ timeout ≤ p.time) :
    fetchFaviconsParallel urlGroups (probeEnvOf c net) timeout = none := by
  unfold fetchFaviconsParallel
  rw [runQueue_eq_find]
  have hfind : List.find? (isHit timeout)
      (List.insertionSort timeLE (mkProbes urlGroups (probeEnvOf c net)))
      = none := by
    rw [List.find?_eq_none]
    intro x hx
    simp only [isHit, Bool.and_eq_true, decide_eq_true_eq]
    rintro ⟨hlt, hok⟩
    rcases h x ((List.mem_insertionSort timeLE).mp hx) with he | ht
    · exact he hok
    · omega
  rw [hfind]
  rfl

/-- C2 witness: over the real candidate groups for host `h`, the root
`favicon.ico` candidate answers 404 and every other candidate serves
HTML; all probes fail and the Resolver returns `none`. -/
theorem fetchFaviconsParallel_none_of_no_success_witness :
    fetchFaviconsParallel (getFaviconURLs "https://h")
      (probeEnvOf sampleCodec failNetEnv) 100 = none :=
  fetchFaviconsParallel_none_of_no_success (getFaviconURLs "https://h")
    sampleCodec failNetEnv 100 (by decide)

/-- C10 counterexample: for the empty address the handler answers 400
before any scheme completion, while the explicit `https://` form is
processed, so the two requests are not treated identically. -/
theorem handleHome_empty_url_divergence :
    handleHomeV1 sampleEdgeEnv "" ≠ handleHomeV1 sampleEdgeEnv ("https://" ++ "") ∧
    handleHomeV1 sampleEdgeEnv "" = { status := 400, headers := [], body := [] } := by
  decide

/-- C10 (amended): for every non-empty address that begins with neither
`http://` nor `https://`, both handler variants treat `?url=a` exactly
like `?url=https://a`: the handler prepends `https://` before domain
extraction, so the two requests produce identical responses. -/
theorem handleHome_scheme_idempotent (env : EdgeEnv) (inm a : String)
    (ha : a ≠ "") (h1 : strStartsWith a "http://" = false)
    (h2 : strStartsWith a "https://" = false) :
    handleHome env inm a = handleHome env inm ("https://" ++ a) ∧
    handleHomeV1 env a = handleHomeV1 env ("https://" ++ a) := by
  have hna : normalizeRawURL a = "https://" ++ a := by
    unfold normalizeRawURL
    rw [if_pos ⟨by simp [h1], by simp [h2]⟩]
  have hsa : strStartsWith ("https://" ++ a) "https://" = true :=
    strStartsWith_append "https://" a
  have hnb : normalizeRawURL ("https://" ++ a) = "https://" ++ a := by
    unfold normalizeRawURL
    rw [if_neg]
    rintro ⟨-, hc⟩
    exact hc hsa
  have hne : ("https://" ++ a) ≠ "" := by
    intro hc
    rw [hc] at hsa
    exact absurd hsa (by decide)
  refine ⟨?_, ?_⟩
  · unfold handleHome
    rw [if_neg ha, if_neg hne, hna, hnb]
  · unfold handleHomeV1
    rw [if_neg ha, if_neg hne, hna, hnb]

/-- C10 witness: the amended equivalence applied to the bare address
`example.com` under empty collaborators. -/
theorem handleHome_scheme_idempotent_witness :
    handleHome sampleEdgeEnv "" "example.com"
      = handleHome sampleEdgeEnv "" ("https://" ++ "example.com") ∧
    handleHomeV1 sampleEdgeEnv "example.com"
      = handleHomeV1 sampleEdgeEnv ("https://" ++ "example.com") :=
  handleHome_scheme_idempotent sampleEdgeEnv "" "example.com"
    (by decide) (by decide) (by decide)

/-- C8 counterexample: a cache-served 200 response carries
`X-Cache: HIT` but no `X-Favicon-Source` header at all, refuting the
claimed `X-Favicon-Source: cached|fetched|default` header. -/
theorem handleHome_no_favicon_source :
    (handleHome hitEdgeEnv "" "example.com").status = 200 ∧
    headerGet (handleHome hitEdgeEnv "" "example.com") "X-Favicon-Source" = none ∧
    headerGet (handleHome hitEdgeEnv "" "example.com") "X-Cache" = some "HIT" := by
  decide

/-- C8 (amended): every 200 response of either handler variant carries
an `X-Cache` header valued HIT, MISS or DEFAULT according to whether
the icon came from the cache, a fresh resolution, or the bundled
default, and carries no `X-Favicon-Source` header. -/
theorem handleHome_xcache (env : EdgeEnv) (inm u : String) (hu : u ≠ "") :
    ((handleHome env inm u).status = 200 →
      headerGet (handleHome env inm u) "X-Cache"
        = some (cacheStatus env (extractDomain2 (normalizeRawURL u))) ∧
      headerGet (handleHome env inm u) "X-Favicon-Source" = none) ∧
    ((handleHomeV1 env u).status = 200 →
      headerGet (handleHomeV1 env u) "X-Cache"
        = some (cacheStatus env (extractDomain (normalizeRawURL u))) ∧
      headerGet (handleHomeV1 env u) "X-Favicon-Source" = none) := by
  constructor
  · intro h200
    simp only [handleHome, if_neg hu] at h200 ⊢
    unfold cacheStatus
    cases hc : env.cache (extractDomain2 (normalizeRawURL u)) with
    | some v =>
      obtain ⟨data, ct⟩ := v
      rw [hc] at h200
      simp only [] at h200 ⊢
      by_cases he : inm = "\"fav-" ++ extractDomain2 (normalizeRawURL u) ++ "\"" ∨
          inm = "W/" ++ ("\"fav-" ++ extractDomain2 (normalizeRawURL u) ++ "\"")
      · rw [if_pos he] at h200
        exact absurd h200 (by decide)
      · rw [if_neg he]
        exact ⟨rfl, rfl⟩
    | none =>
      simp only []
      cases hf : env.fetch
          (getFaviconURLs ("https://" ++ extractDomain2 (normalizeRawURL u))) with
      | some res =>
        simp only []
        exact ⟨rfl, rfl⟩
      | none =>
        simp only []
        exact ⟨rfl, rfl⟩
  · intro h200
    simp only [handleHomeV1, if_neg hu] at h200 ⊢
    unfold cacheStatus
    cases hc : env.cache (extractDomain (normalizeRawURL u)) with
    | some v =>
      obtain ⟨data, ct⟩ := v
      simp only []
      exact ⟨rfl, rfl⟩
    | none =>
      simp only []
      cases hf : env.fetch
          (getFaviconURLs ("https://" ++ extractDomain (normalizeRawURL u))) with
      | some res =>
        simp only []
        exact ⟨rfl, rfl⟩
      | none =>
        simp only []
        exact ⟨rfl, rfl⟩

/-- C8 witness: the amended header law applied to a cache-hit request,
yielding `X-Cache: HIT` and no `X-Favicon-Source`. -/
theorem handleHome_xcache_witness :
    headerGet (handleHome hitEdgeEnv "" "example.com") "X-Cache" = some "HIT" ∧
    headerGet (handleHome hitEdgeEnv "" "example.com") "X-Favicon-Source"
      = none := by
  have h := (handleHome_xcache hitEdgeEnv "" "example.com" (by decide)).1
    (by decide)
  refine ⟨?_, h.2⟩
  rw [h.1]
  decide
